import Mathlib

/-!
Formal model of the query-translation and text-matching core of a Bible
verse lookup GUI (src/main.rs): the boolean search-query compiler
(`build_where_clause`), the verse-reference parser (`parse_lookup`), the
highlight segmenter (`split_for_highlight`), and the update handlers for
advanced search, lookup and multi-source comparison.  Rust strings are
modelled as Lean `String`/`List Char` (string primitives re-implemented
structurally so that everything evaluates by kernel reduction); the external
SQLite and regex libraries are modelled as explicit capability parameters
whose documented interface contracts appear as hypotheses.
-/

/-! ## String primitives (structural models of the Rust `str` methods) -/

/-- Rust `str::to_uppercase`, ASCII-idealized. -/
def strUpper (s : String) : String := String.mk (s.data.map Char.toUpper)

/-- Rust `str::starts_with`. -/
def strStartsWith (s pre : String) : Bool := pre.data.isPrefixOf s.data

/-- Dropping the first `n` characters of a string (Rust byte slicing
`&s[n..]`; the reachable uses slice after an ASCII prefix, where byte and
character offsets coincide). -/
def strDrop (s : String) (n : Nat) : String := String.mk (s.data.drop n)

/-- Whitespace trimming on a character list (Rust `str::trim`). -/
def trimList (l : List Char) : List Char :=
  ((l.dropWhile Char.isWhitespace).reverse.dropWhile Char.isWhitespace).reverse

/-- Rust `str::trim`. -/
def strTrim (s : String) : String := String.mk (trimList s.data)

/-- UTF-8 byte width of one character. -/
def charBytes (c : Char) : Nat :=
  if c.val < 128 then 1 else if c.val < 2048 then 2 else if c.val < 65536 then 3 else 4

/-- Rust `str::len`: the UTF-8 byte length. -/
def byteLen (s : String) : Nat := (s.data.map charBytes).sum

/-- Accumulator loop for whitespace splitting. -/
def splitWsAux : List Char → List Char → List (List Char)
  | [], acc => if acc.isEmpty then [] else [acc.reverse]
  | c :: cs, acc =>
    if c.isWhitespace then
      if acc.isEmpty then splitWsAux cs [] else acc.reverse :: splitWsAux cs []
    else splitWsAux cs (c :: acc)

/-- Rust `str::split_whitespace`: maximal non-whitespace runs, in order. -/
def splitWhitespace (s : String) : List String :=
  (splitWsAux s.data []).map String.mk

/-! ## QueryCompiler: `build_where_clause` (src/main.rs lines 93-129) -/

/-- The positive-term SQL condition pushed by `build_where_clause`. -/
def likeSql : String := "text LIKE \x27%\x27 || ? || \x27%\x27"

/-- The negated-term SQL condition pushed by `build_where_clause`. -/
def notLikeSql : String := "text NOT LIKE \x27%\x27 || ? || \x27%\x27"

/-- The operator scan loop of `build_where_clause`: `operator` starts as
`"AND"`; a token whose uppercase form is `"AND"` sets it and breaks, a token
uppercasing to `"OR"` sets it to `"OR"` and the scan continues. -/
def scanOperator : List String → String → String
  | [], op => op
  | t :: ts, op =>
    let upper := strUpper t
    if upper = "AND" then "AND"
    else if upper = "OR" then scanOperator ts "OR"
    else scanOperator ts op

/-- The condition/parameter building loop of `build_where_clause`: skip
operator keywords; a token whose uppercase starts with `"NOT"` and whose byte
length exceeds 3 contributes a negated condition for its stripped, trimmed
remainder when that remainder is non-empty (and nothing otherwise); any other
token contributes a positive condition for its full text. -/
def buildConds : List String → List String × List String
  | [] => ([], [])
  | t :: ts =>
    let upper := strUpper t
    if upper = "AND" ∨ upper = "OR" then buildConds ts
    else if strStartsWith upper "NOT" ∧ 3 < byteLen t then
      let term := strTrim (strDrop t 3)
      if term = "" then buildConds ts
      else
        let r := buildConds ts
        (notLikeSql :: r.1, term :: r.2)
    else
      let r := buildConds ts
      (likeSql :: r.1, t :: r.2)

/-- Rust `Vec::join(sep)`. -/
def joinSep (sep : String) : List String → String
  | [] => ""
  | [c] => c
  | c :: cs => c ++ sep ++ joinSep sep cs

/-- `build_where_clause` (src/main.rs lines 93-129): returns the WHERE clause
text and the parameter vector; an empty condition list yields the clause
`"1"`, otherwise the conditions joined with the selected operator. -/
def build_where_clause (query : String) : String × List String :=
  let tokens := splitWhitespace query
  let operator := scanOperator tokens "AND"
  let r := buildConds tokens
  let clause := if r.1.isEmpty then "1" else joinSep (" " ++ operator ++ " ") r.1
  (clause, r.2)

/-- Number of `?` parameter placeholders in a piece of SQL text. -/
def countQ (s : String) : Nat := s.data.count '?'

/-- Case-insensitive-collation substring test over character lists. -/
def containsSub (p : List Char) : List Char → Bool
  | [] => p.isEmpty
  | c :: t => p.isPrefixOf (c :: t) || containsSub p t

/-- Modelled from the spec: the external SQL engine's evaluation of one
generated condition against a row's text (SQLite default `LIKE`,
ASCII-case-insensitive containment); the condition string selects between the
positive and the negated containment test. -/
def condHolds (cond param rowText : String) : Bool :=
  if cond = notLikeSql then !(containsSub (strUpper param).data (strUpper rowText).data)
  else containsSub (strUpper param).data (strUpper rowText).data

/-- Modelled from the spec: the external SQL engine's evaluation of the whole
generated WHERE clause (conditions zipped with their parameters, joined by the
selected operator); an empty condition list renders as the literal clause
`"1"`, which is trivially true for every record. -/
def whereSem (cps : List (String × String)) (op : String) (rowText : String) : Bool :=
  match cps with
  | [] => true
  | l => if op = "OR" then l.any (fun cp => condHolds cp.1 cp.2 rowText)
         else l.all (fun cp => condHolds cp.1 cp.2 rowText)

/-! ### Lemmas about the operator scan and the condition loop -/

/-- Characterization of the operator scan loop for any accumulator value. -/
lemma scanOperator_eq (ts : List String) (acc : String) :
    scanOperator ts acc =
      if ts.any (fun t => strUpper t == "AND") then "AND"
      else if ts.any (fun t => strUpper t == "OR") then "OR"
      else acc := by
  induction ts generalizing acc with
  | nil => simp [scanOperator]
  | cons t ts ih =>
    by_cases hA : strUpper t = "AND"
    · simp [scanOperator, hA]
    · by_cases hO : strUpper t = "OR"
      · simp only [scanOperator, hO, if_pos rfl, if_neg hA, List.any_cons]
        rw [ih]
        simp [hA, hO]
      · simp only [scanOperator, if_neg hA, if_neg hO, List.any_cons]
        rw [ih]
        simp [hA, hO]

/-- The scanned operator is always one of the two SQL keywords. -/
lemma scanOperator_mem (ts : List String) (acc : String)
    (h : acc = "AND" ∨ acc = "OR") :
    scanOperator ts acc = "AND" ∨ scanOperator ts acc = "OR" := by
  rw [scanOperator_eq]
  split
  · exact Or.inl rfl
  · split
    · exact Or.inr rfl
    · exact h

/-- The two condition/parameter vectors are built in lockstep, and every
condition is one of the two fixed condition strings. -/
lemma buildConds_shape (ts : List String) :
    ((buildConds ts).1.length = (buildConds ts).2.length) ∧
    ∀ c ∈ (buildConds ts).1, c = likeSql ∨ c = notLikeSql := by
  induction ts with
  | nil => simp [buildConds]
  | cons t ts ih =>
    by_cases h1 : strUpper t = "AND" ∨ strUpper t = "OR"
    · simpa [buildConds, h1] using ih
    · by_cases h2 : strStartsWith (strUpper t) "NOT" ∧ 3 < byteLen t
      · by_cases h3 : strTrim (strDrop t 3) = ""
        · simpa [buildConds, h1, h2, h3] using ih
        · refine ⟨?_, ?_⟩
          · simpa [buildConds, h1, h2, h3] using ih.1
          · intro c hc
            simp only [buildConds, if_neg h1, if_pos h2, if_neg h3] at hc
            rcases List.mem_cons.mp hc with rfl | hc2
            · exact Or.inr rfl
            · exact ih.2 c hc2
      · refine ⟨?_, ?_⟩
        · simpa [buildConds, h1, h2] using ih.1
        · intro c hc
          simp only [buildConds, if_neg h1, if_neg h2] at hc
          rcases List.mem_cons.mp hc with rfl | hc2
          · exact Or.inl rfl
          · exact ih.2 c hc2

lemma countQ_append (a b : String) : countQ (a ++ b) = countQ a + countQ b := by
  simp [countQ, String.data_append]

/-- Joining condition strings that each contain exactly one placeholder with a
placeholder-free separator yields one placeholder per condition. -/
lemma countQ_joinSep (sep : String) (hsep : countQ sep = 0) (l : List String)
    (hl : ∀ c ∈ l, countQ c = 1) : countQ (joinSep sep l) = l.length := by
  induction l with
  | nil => simp [joinSep, countQ]
  | cons c cs ih =>
    cases cs with
    | nil => simpa [joinSep] using hl c (by simp)
    | cons d ds =>
      have hc := hl c (by simp)
      have hrest : ∀ x ∈ d :: ds, countQ x = 1 := fun x hx => hl x (by simp [hx])
      calc countQ (c ++ sep ++ joinSep sep (d :: ds))
          = countQ c + countQ sep + countQ (joinSep sep (d :: ds)) := by
            rw [countQ_append, countQ_append]
        _ = (d :: ds).length + 1 := by rw [hc, hsep, ih hrest]; omega
        _ = (c :: d :: ds).length := by simp

/-! ## Claim theorems about the query compiler -/

/-- C3: for every query string, the compiled operator is AND if any
whitespace token uppercases to "AND" (the scan stopping there), otherwise OR
if any token uppercases to "OR", otherwise AND by default; in particular a
query containing both an "AND" token and an "OR" token always selects AND,
regardless of keyword order. -/
theorem operator_selection :
    (∀ query : String,
      scanOperator (splitWhitespace query) "AND" =
        if (splitWhitespace query).any (fun t => strUpper t == "AND") then "AND"
        else if (splitWhitespace query).any (fun t => strUpper t == "OR") then "OR"
        else "AND") ∧
    (∀ query : String,
      (splitWhitespace query).any (fun t => strUpper t == "AND") = true →
      (splitWhitespace query).any (fun t => strUpper t == "OR") = true →
      scanOperator (splitWhitespace query) "AND" = "AND") := by
  refine ⟨fun query => scanOperator_eq _ _, fun query hA _ => ?_⟩
  rw [scanOperator_eq, if_pos hA]

/-- Witness for `operator_selection` at the query "x OR y AND z": both
keywords occur and the compiled operator is AND. -/
theorem operator_selection_witness :
    scanOperator (splitWhitespace "x OR y AND z") "AND" = "AND" :=
  operator_selection.2 "x OR y AND z" (by decide) (by decide)

/-- C4: per-token behavior of the condition/parameter loop: tokens
uppercasing to "AND" or "OR" are skipped; a token whose uppercase starts with
"NOT" and whose length exceeds 3 yields a negated condition whose parameter
is the token with its 3-character prefix stripped and trimmed when that
remainder is non-empty, and is dropped entirely (no condition, no parameter,
no error) when the remainder is empty; every other token (including the
tokens "NOT" and "NO" themselves) yields a positive condition with the full
token text as parameter. -/
theorem term_construction :
    (∀ t ts, (strUpper t = "AND" ∨ strUpper t = "OR") →
      buildConds (t :: ts) = buildConds ts) ∧
    (∀ t ts, ¬(strUpper t = "AND" ∨ strUpper t = "OR") →
      strStartsWith (strUpper t) "NOT" = true → 3 < byteLen t →
      (strTrim (strDrop t 3) ≠ "" →
        buildConds (t :: ts) =
          (notLikeSql :: (buildConds ts).1, strTrim (strDrop t 3) :: (buildConds ts).2)) ∧
      (strTrim (strDrop t 3) = "" → buildConds (t :: ts) = buildConds ts)) ∧
    (∀ t ts, ¬(strUpper t = "AND" ∨ strUpper t = "OR") →
      ¬(strStartsWith (strUpper t) "NOT" = true ∧ 3 < byteLen t) →
      buildConds (t :: ts) = (likeSql :: (buildConds ts).1, t :: (buildConds ts).2)) ∧
    buildConds ["NOTfaith"] = ([notLikeSql], ["faith"]) ∧
    buildConds ["NOT"] = ([likeSql], ["NOT"]) ∧
    buildConds ["NO"] = ([likeSql], ["NO"]) := by
  refine ⟨?_, ?_, ?_, by decide, by decide, by decide⟩
  · intro t ts h
    simp [buildConds, h]
  · intro t ts h1 h2 h3
    constructor
    · intro h4
      simp [buildConds, h1, h2, h3, h4]
    · intro h4
      simp [buildConds, h1, h2, h3, h4]
  · intro t ts h1 h2
    simp [buildConds, h1, h2]

/-- Witness for `term_construction`: the token "OR" is skipped by the
condition loop. -/
theorem term_construction_witness :
    buildConds ["OR", "faith"] = buildConds ["faith"] :=
  term_construction.1 "OR" ["faith"] (by decide)

/-- C6: whenever compilation yields no surviving condition, the generated
WHERE clause is the literal `"1"` and its SQL-shape semantics is true for
every record (never an error, never match-nothing); the empty query is such a
query. -/
theorem empty_predicate_trivially_true :
    (∀ query : String, (buildConds (splitWhitespace query)).1 = [] →
      (build_where_clause query).1 = "1" ∧
      ∀ rowText : String,
        whereSem (((buildConds (splitWhitespace query)).1).zip
            ((buildConds (splitWhitespace query)).2))
          (scanOperator (splitWhitespace query) "AND") rowText = true) ∧
    build_where_clause "" = ("1", []) ∧
    ∀ rowText : String, whereSem [] "AND" rowText = true := by
  refine ⟨?_, by decide, fun rowText => rfl⟩
  intro query h
  constructor
  · simp [build_where_clause, h]
  · intro rowText
    simp [h, whereSem]

/-- Witness for `empty_predicate_trivially_true` at the query "AND", whose
only token is an operator keyword, so no condition survives. -/
theorem empty_predicate_trivially_true_witness :
    (build_where_clause "AND").1 = "1" ∧
    ∀ rowText : String,
      whereSem (((buildConds (splitWhitespace "AND")).1).zip
          ((buildConds (splitWhitespace "AND")).2))
        (scanOperator (splitWhitespace "AND") "AND") rowText = true :=
  empty_predicate_trivially_true.1 "AND" (by decide)

/-- C10: for every query string, the generated WHERE clause contains exactly
as many `?` placeholders as there are entries in the parameter vector. -/
theorem placeholder_param_count (query : String) :
    countQ (build_where_clause query).1 = (build_where_clause query).2.length := by
  have hshape := buildConds_shape (splitWhitespace query)
  by_cases h : (buildConds (splitWhitespace query)).1 = []
  · have hp : (buildConds (splitWhitespace query)).2 = [] := by
      have := hshape.1
      rw [h] at this
      exact List.length_eq_zero.mp this.symm
    simp [build_where_clause, h, hp, countQ]
  · have hop := scanOperator_mem (splitWhitespace query) "AND" (Or.inl rfl)
    have hsep : countQ (" " ++ scanOperator (splitWhitespace query) "AND" ++ " ") = 0 := by
      rcases hop with hop | hop <;> rw [countQ_append, countQ_append, hop] <;> decide
    have hone : ∀ c ∈ (buildConds (splitWhitespace query)).1, countQ c = 1 := by
      intro c hc
      rcases hshape.2 c hc with rfl | rfl <;> decide
    have hne : (buildConds (splitWhitespace query)).1.isEmpty = false := by
      cases hcase : (buildConds (splitWhitespace query)).1 with
      | nil => exact absurd hcase h
      | cons a l => simp
    simp only [build_where_clause, hne, Bool.false_eq_true, if_false]
    rw [countQ_joinSep _ hsep _ hone]
    exact hshape.1

/-! ## ReferenceParser: `parse_lookup` (src/main.rs lines 133-148)

The anchored regex
`^(?P<book>\S+)\s+(?P<start_ch>\d+):(?P<start_v>\d+)-(?:(?P<end_ch>\d+):)?(?P<end_v>\d+)$`
is deterministic (every quantified class is disjoint from the character that
must follow it), so it is embedded as the equivalent maximal-munch parser
below; `u32::parse` on an all-digit capture fails exactly on overflow. -/

/-- One `\d+` step: the maximal leading digit run, which must be non-empty. -/
def expectDigits (l : List Char) : Option (List Char × List Char) :=
  let d := l.takeWhile Char.isDigit
  if d = [] then none else some (d, l.dropWhile Char.isDigit)

/-- One literal-character step of the reference grammar. -/
def expectChar (c : Char) : List Char → Option (List Char)
  | [] => none
  | x :: xs => if x = c then some xs else none

/-- Numeric value of a digit run. -/
def digitsToNat (l : List Char) : Nat :=
  l.foldl (fun n c => n * 10 + (c.toNat - 48)) 0

/-- Rust `str::parse::<u32>` on an all-digit capture: fails exactly on
overflow. -/
def toU32 (l : List Char) : Option Nat :=
  if digitsToNat l < 4294967296 then some (digitsToNat l) else none

/-- `parse_lookup`'s regex match and capture extraction over a character
list: book is the maximal non-whitespace prefix, followed by mandatory
whitespace, `start:verse`, a dash, and either a bare end verse or an
`end_ch:end_v` pair; all numeric captures must parse as `u32`. -/
def parseRef (l : List Char) : Option (List Char × Nat × Nat × Nat × Nat) :=
  let book := l.takeWhile (fun c => !c.isWhitespace)
  let r1 := l.dropWhile (fun c => !c.isWhitespace)
  if book = [] ∨ r1 = [] then none
  else
    (expectDigits (r1.dropWhile Char.isWhitespace)).bind fun p1 =>
    (expectChar ':' p1.2).bind fun r4 =>
    (expectDigits r4).bind fun p2 =>
    (expectChar '-' p2.2).bind fun r6 =>
    (expectDigits r6).bind fun p3 =>
    match p3.2 with
    | [] =>
      (toU32 p1.1).bind fun sc =>
      (toU32 p2.1).bind fun sv =>
      (toU32 p3.1).map fun ev => (book, sc, sv, sc, ev)
    | c :: r8 =>
      if c = ':' then
        (expectDigits r8).bind fun p4 =>
        if p4.2 = [] then
          (toU32 p1.1).bind fun sc =>
          (toU32 p2.1).bind fun sv =>
          (toU32 p3.1).bind fun ec =>
          (toU32 p4.1).map fun ev => (book, sc, sv, ec, ev)
        else none
      else none

/-- `parse_lookup` (src/main.rs lines 133-148). -/
def parse_lookup (s : String) : Option (String × Nat × Nat × Nat × Nat) :=
  (parseRef s.data).map fun r => (String.mk r.1, r.2)

/-- A non-empty all-digit character run. -/
def IsDigitRun (l : List Char) : Prop := l ≠ [] ∧ ∀ c ∈ l, c.isDigit = true

/-- A digit run whose numeric value is `n`, within `u32` range. -/
def U32Val (l : List Char) (n : Nat) : Prop := digitsToNat l = n ∧ n < 4294967296

/-- Modelled from the spec: the reference grammar of §4.2,
`<collectionKey> <startChapter>:<startVerse>-[<endChapter>:]<endVerse>`,
anchored at both ends, with the end-chapter defaulting rule of §3. -/
def RefGrammar (l : List Char) (book : List Char) (sc sv ec ev : Nat) : Prop :=
  ∃ bk ws d1 d2 tl : List Char,
    l = bk ++ (ws ++ (d1 ++ ':' :: (d2 ++ '-' :: tl))) ∧
    bk ≠ [] ∧ (∀ c ∈ bk, c.isWhitespace = false) ∧
    ws ≠ [] ∧ (∀ c ∈ ws, c.isWhitespace = true) ∧
    IsDigitRun d1 ∧ U32Val d1 sc ∧ IsDigitRun d2 ∧ U32Val d2 sv ∧
    book = bk ∧
    ((IsDigitRun tl ∧ U32Val tl ev ∧ ec = sc) ∨
     (∃ d3 d4 : List Char, tl = d3 ++ ':' :: d4 ∧ IsDigitRun d3 ∧ U32Val d3 ec ∧
        IsDigitRun d4 ∧ U32Val d4 ev))

/-! ### Span lemmas -/

lemma span_append {α : Type} (p : α → Bool) (A B : List α)
    (hA : ∀ a ∈ A, p a = true) (hB : ∀ x ∈ B.head?, p x = false) :
    (A ++ B).takeWhile p = A ∧ (A ++ B).dropWhile p = B := by
  induction A with
  | nil =>
    simp only [List.nil_append]
    cases B with
    | nil => simp
    | cons b bs =>
      have hb : p b = false := hB b rfl
      constructor
      · rw [List.takeWhile_cons_of_neg (by simp [hb])]
      · rw [List.dropWhile_cons_of_neg (by simp [hb])]
  | cons a A ih =>
    have ha : p a = true := hA a (by simp)
    have ih2 := ih fun x hx => hA x (by simp [hx])
    constructor
    · rw [List.cons_append, List.takeWhile_cons_of_pos (by simp [ha]), ih2.1]
    · rw [List.cons_append, List.dropWhile_cons_of_pos (by simp [ha]), ih2.2]

lemma head?_dropWhile_false {α : Type} (p : α → Bool) (l : List α) :
    ∀ x ∈ (l.dropWhile p).head?, p x = false := by
  induction l with
  | nil => intro x hx; simp at hx
  | cons a l ih =>
    by_cases h : p a = true
    · intro x hx
      rw [List.dropWhile_cons_of_pos (by simp [h])] at hx
      exact ih x hx
    · intro x hx
      rw [List.dropWhile_cons_of_neg (by simp [h])] at hx
      have : a = x := by simpa using hx
      subst this
      simpa using h

lemma expectDigits_some {l d r : List Char} (h : expectDigits l = some (d, r)) :
    l = d ++ r ∧ d ≠ [] ∧ (∀ c ∈ d, c.isDigit = true) ∧
      ∀ x ∈ r.head?, x.isDigit = false := by
  unfold expectDigits at h
  by_cases hd : l.takeWhile Char.isDigit = []
  · rw [if_pos hd] at h; exact absurd h (by simp)
  · rw [if_neg hd] at h
    have h2 := Option.some.inj h
    have hdd : l.takeWhile Char.isDigit = d := congrArg Prod.fst h2
    have hrr : l.dropWhile Char.isDigit = r := congrArg Prod.snd h2
    refine ⟨?_, ?_, ?_, ?_⟩
    · rw [← hdd, ← hrr, List.takeWhile_append_dropWhile]
    · rw [← hdd]; exact hd
    · intro c hc
      rw [← hdd] at hc
      exact List.mem_takeWhile_imp hc
    · rw [← hrr]
      exact head?_dropWhile_false Char.isDigit l

lemma expectDigits_append {d r : List Char} (hd : d ≠ [])
    (hall : ∀ c ∈ d, c.isDigit = true) (hr : ∀ x ∈ r.head?, x.isDigit = false) :
    expectDigits (d ++ r) = some (d, r) := by
  have hs := span_append Char.isDigit d r hall hr
  unfold expectDigits
  rw [hs.1, hs.2, if_neg hd]

lemma expectChar_eq_some {c : Char} {l r : List Char} :
    expectChar c l = some r ↔ l = c :: r := by
  cases l with
  | nil => simp [expectChar]
  | cons x xs =>
    by_cases h : x = c
    · subst h; simp [expectChar]
    · simp only [expectChar, if_neg h]
      constructor
      · intro h2; exact absurd h2 (by simp)
      · intro h2
        injection h2 with h1 _
        exact absurd h1 h

lemma toU32_eq_some {l : List Char} {n : Nat} :
    toU32 l = some n ↔ digitsToNat l = n ∧ n < 4294967296 := by
  unfold toU32
  by_cases h : digitsToNat l < 4294967296
  · simp only [if_pos h, Option.some.injEq]
    constructor
    · rintro rfl; exact ⟨rfl, h⟩
    · rintro ⟨rfl, _⟩; rfl
  · simp only [if_neg h]
    constructor
    · intro hh; exact absurd hh (by simp)
    · rintro ⟨rfl, hlt⟩; exact absurd hlt h

lemma digit_not_ws (c : Char) (h : c.isDigit = true) : c.isWhitespace = false := by
  cases hw : c.isWhitespace with
  | false => rfl
  | true =>
    exfalso
    simp only [Char.isWhitespace, Bool.or_eq_true, decide_eq_true_eq] at hw
    rcases hw with ((rfl | rfl) | rfl) | rfl <;> exact absurd h (by decide)

/-! ### The parser matches the reference grammar exactly -/

lemma parseRef_some_imp {l book : List Char} {sc sv ec ev : Nat}
    (h : parseRef l = some (book, sc, sv, ec, ev)) :
    RefGrammar l book sc sv ec ev := by
  simp only [parseRef] at h
  by_cases hcond : (l.takeWhile fun c => !c.isWhitespace) = [] ∨
      (l.dropWhile fun c => !c.isWhitespace) = []
  · rw [if_pos hcond] at h; simp at h
  · rw [if_neg hcond] at h
    push_neg at hcond
    obtain ⟨hbk, hr1⟩ := hcond
    simp only [Option.bind_eq_some] at h
    obtain ⟨⟨d1, r3⟩, hE1, h⟩ := h
    obtain ⟨r4, hC1, h⟩ := h
    obtain ⟨⟨d2, r5⟩, hE2, h⟩ := h
    obtain ⟨r6, hC2, h⟩ := h
    obtain ⟨⟨d3, r7⟩, hE3, h⟩ := h
    obtain ⟨hsplit2, hd1ne, hd1dig, -⟩ := expectDigits_some hE1
    have hr3 : r3 = ':' :: r4 := expectChar_eq_some.mp hC1
    obtain ⟨hsplit3, hd2ne, hd2dig, -⟩ := expectDigits_some hE2
    have hr5 : r5 = '-' :: r6 := expectChar_eq_some.mp hC2
    obtain ⟨hsplit4, hd3ne, hd3dig, -⟩ := expectDigits_some hE3
    -- the whitespace run between the book key and the first digit run
    have hr1split := (List.takeWhile_append_dropWhile (p := Char.isWhitespace)
      (l := l.dropWhile fun c => !c.isWhitespace)).symm
    have hwsall : ∀ c ∈ (l.dropWhile fun c => !c.isWhitespace).takeWhile Char.isWhitespace,
        c.isWhitespace = true := fun c hc => List.mem_takeWhile_imp hc
    have hwsne : (l.dropWhile fun c => !c.isWhitespace).takeWhile Char.isWhitespace ≠ [] := by
      obtain ⟨y, ys, hy⟩ := List.exists_cons_of_ne_nil hr1
      have hyw : y.isWhitespace = true := by
        have := head?_dropWhile_false (fun c => !c.isWhitespace) l y
        rw [hy] at this
        simpa using this rfl
      rw [hy, List.takeWhile_cons_of_pos (by simp [hyw])]
      simp
    have hbkall : ∀ c ∈ (l.takeWhile fun c => !c.isWhitespace), c.isWhitespace = false :=
      fun c hc => by simpa using List.mem_takeWhile_imp hc
    have hldecomp : l = (l.takeWhile fun c => !c.isWhitespace) ++
        (((l.dropWhile fun c => !c.isWhitespace).takeWhile Char.isWhitespace) ++
        (d1 ++ ':' :: (d2 ++ '-' :: r6))) := by
      conv_lhs => rw [← List.takeWhile_append_dropWhile (p := fun c => !c.isWhitespace) (l := l)]
      congr 1
      conv_lhs => rw [hr1split]
      congr 1
      rw [hsplit2, hr3]
      congr 1
      rw [hsplit3, hr5]
    cases r7 with
    | nil =>
      simp only [Option.bind_eq_some, Option.map_eq_some'] at h
      obtain ⟨sc1, hsc, sv1, hsv, ev1, hev, heq⟩ := h
      simp only [Prod.mk.injEq] at heq
      obtain ⟨hbook, hsceq, hsveq, heceq, heveq⟩ := heq
      subst hsceq hsveq heveq hbook
      refine ⟨_, _, d1, d2, d3, ?_, hbk, hbkall, hwsne, hwsall, ⟨hd1ne, hd1dig⟩,
        toU32_eq_some.mp hsc, ⟨hd2ne, hd2dig⟩, toU32_eq_some.mp hsv, rfl,
        Or.inl ⟨⟨hd3ne, hd3dig⟩, toU32_eq_some.mp hev, heceq.symm⟩⟩
      rw [List.append_nil] at hsplit4
      rw [← hsplit4]
      exact hldecomp
    | cons c r8 =>
      dsimp only at h
      by_cases hc : c = ':'
      · subst hc
        rw [if_pos rfl] at h
        simp only [Option.bind_eq_some] at h
        obtain ⟨⟨d4, r9⟩, hE4, h⟩ := h
        dsimp only at h
        by_cases hr9 : r9 = []
        · subst hr9
          rw [if_pos rfl] at h
          simp only [Option.bind_eq_some, Option.map_eq_some'] at h
          obtain ⟨sc1, hsc, sv1, hsv, ec1, hec, ev1, hev, heq⟩ := h
          simp only [Prod.mk.injEq] at heq
          obtain ⟨hbook, hsceq, hsveq, heceq, heveq⟩ := heq
          subst hsceq hsveq heveq heceq hbook
          obtain ⟨hsplit5, hd4ne, hd4dig, -⟩ := expectDigits_some hE4
          rw [List.append_nil] at hsplit5
          refine ⟨_, _, d1, d2, d3 ++ ':' :: d4, ?_, hbk, hbkall, hwsne, hwsall,
            ⟨hd1ne, hd1dig⟩, toU32_eq_some.mp hsc, ⟨hd2ne, hd2dig⟩, toU32_eq_some.mp hsv, rfl,
            Or.inr ⟨d3, d4, rfl, ⟨hd3ne, hd3dig⟩, toU32_eq_some.mp hec,
              ⟨hd4ne, hd4dig⟩, toU32_eq_some.mp hev⟩⟩
          rw [← hsplit5, ← hsplit4]
          exact hldecomp
        · rw [if_neg hr9] at h
          simp at h
      · rw [if_neg hc] at h
        simp at h

lemma parseRef_complete {l book : List Char} {sc sv ec ev : Nat}
    (h : RefGrammar l book sc sv ec ev) :
    parseRef l = some (book, sc, sv, ec, ev) := by
  obtain ⟨bk, ws, d1, d2, tl, hl, hbk, hbkAll, hws, hwsAll, hd1, hu1, hd2, hu2, hbook, htl⟩ := h
  subst hl
  subst hbook
  obtain ⟨w, ws2, rfl⟩ := List.exists_cons_of_ne_nil hws
  obtain ⟨e1, d1t, he1⟩ := List.exists_cons_of_ne_nil hd1.1
  have hspan1 := span_append (fun c => !c.isWhitespace) book
      ((w :: ws2) ++ (d1 ++ ':' :: (d2 ++ '-' :: tl)))
      (fun a ha => by simp [hbkAll a ha])
      (by
        intro x hx
        have hwx : w = x := by simpa using hx
        subst hwx
        simp [hwsAll w (by simp)])
  have hspan2 := span_append Char.isWhitespace (w :: ws2) (d1 ++ ':' :: (d2 ++ '-' :: tl))
      (fun a ha => hwsAll a ha)
      (by
        intro x hx
        rw [he1] at hx
        have hex : e1 = x := by simpa using hx
        subst hex
        exact digit_not_ws e1 (hd1.2 e1 (by rw [he1]; simp)))
  have hED1 : expectDigits (d1 ++ ':' :: (d2 ++ '-' :: tl)) =
      some (d1, ':' :: (d2 ++ '-' :: tl)) :=
    expectDigits_append hd1.1 hd1.2 (by
      intro x hx
      have : ':' = x := by simpa using hx
      subst this
      decide)
  have hED2 : expectDigits (d2 ++ '-' :: tl) = some (d2, '-' :: tl) :=
    expectDigits_append hd2.1 hd2.2 (by
      intro x hx
      have : '-' = x := by simpa using hx
      subst this
      decide)
  have hEC1 : expectChar ':' (':' :: (d2 ++ '-' :: tl)) = some (d2 ++ '-' :: tl) :=
    expectChar_eq_some.mpr rfl
  have hEC2 : expectChar '-' ('-' :: tl) = some tl := expectChar_eq_some.mpr rfl
  have ht1 : toU32 d1 = some sc := toU32_eq_some.mpr hu1
  have ht2 : toU32 d2 = some sv := toU32_eq_some.mpr hu2
  simp only [parseRef]
  rw [hspan1.1, hspan1.2]
  rw [if_neg (by simp [hbk])]
  rw [hspan2.2]
  rw [hED1, Option.some_bind]
  dsimp only
  rw [hEC1, Option.some_bind]
  rw [hED2, Option.some_bind]
  dsimp only
  rw [hEC2, Option.some_bind]
  rcases htl with ⟨hd3, hu3, hece⟩ | ⟨d3, d4, htl2, hd3, hu3, hd4, hu4⟩
  · have hED3 : expectDigits tl = some (tl, []) := by
      have := expectDigits_append hd3.1 hd3.2
        (r := []) (by intro x hx; simp at hx)
      rwa [List.append_nil] at this
    have ht3 : toU32 tl = some ev := toU32_eq_some.mpr hu3
    rw [hED3, Option.some_bind]
    dsimp only
    rw [ht1, Option.some_bind, ht2, Option.some_bind, ht3, Option.map_some']
    rw [hece]
  · subst htl2
    have hED3 : expectDigits (d3 ++ ':' :: d4) = some (d3, ':' :: d4) :=
      expectDigits_append hd3.1 hd3.2 (by
        intro x hx
        have : ':' = x := by simpa using hx
        subst this
        decide)
    have hED4 : expectDigits d4 = some (d4, []) := by
      have := expectDigits_append hd4.1 hd4.2
        (r := []) (by intro x hx; simp at hx)
      rwa [List.append_nil] at this
    have ht3 : toU32 d3 = some ec := toU32_eq_some.mpr hu3
    have ht4 : toU32 d4 = some ev := toU32_eq_some.mpr hu4
    rw [hED3, Option.some_bind]
    dsimp only
    rw [if_pos rfl]
    rw [hED4, Option.some_bind]
    dsimp only
    rw [if_pos rfl]
    rw [ht1, Option.some_bind, ht2, Option.some_bind, ht3, Option.some_bind, ht4,
      Option.map_some']

/-- C5: `parse_lookup` returns a parsed range exactly when the whole input
string (anchored at both ends) matches the grammar `<collectionKey>
<startChapter>:<startVerse>-[<endChapter>:]<endVerse>` with every numeric
field parsing as an unsigned 32-bit integer, and fails otherwise; when the
end chapter is omitted it defaults to the start chapter.  In particular
"Gen 6:1-6" parses to ("Gen",6,1,6,6), "Gen 6:1-7:2" to ("Gen",6,1,7,2),
and "not a ref" fails. -/
theorem parse_lookup_grammar :
    (∀ (s book : String) (sc sv ec ev : Nat),
      parse_lookup s = some (book, sc, sv, ec, ev) ↔
        RefGrammar s.data book.data sc sv ec ev) ∧
    parse_lookup "Gen 6:1-6" = some ("Gen", 6, 1, 6, 6) ∧
    parse_lookup "Gen 6:1-7:2" = some ("Gen", 6, 1, 7, 2) ∧
    parse_lookup "not a ref" = none := by
  refine ⟨?_, by decide, by decide, by decide⟩
  intro s book sc sv ec ev
  constructor
  · intro h
    simp only [parse_lookup, Option.map_eq_some'] at h
    obtain ⟨⟨bk, tup⟩, hp, heq⟩ := h
    simp only [Prod.mk.injEq] at heq
    obtain ⟨hbook, htup⟩ := heq
    have hdata : book.data = bk := by rw [← hbook]
    rw [hdata]
    subst htup
    exact parseRef_some_imp hp
  · intro h
    have hp := parseRef_complete h
    simp only [parse_lookup, hp, Option.map_some']

/-! ## HighlightSegmenter: `split_for_highlight` (src/main.rs lines 151-182) -/

/-- The sub-list `l[a..b]` (character positions). -/
def sliceL (l : List Char) (a b : Nat) : List Char := (l.drop a).take (b - a)

/-- The span-emission loop of `split_for_highlight`: walk the match intervals
in order, emitting a non-matching span for each gap before a match, a
matching span for each match, and a trailing non-matching span for any
remainder after the last match. -/
def segLoop (text : List Char) : List (Nat × Nat) → Nat → List (List Char × Bool)
  | [], lastEnd =>
    if lastEnd < text.length then [(sliceL text lastEnd text.length, false)] else []
  | (s, e) :: ms, lastEnd =>
    (if lastEnd < s then [(sliceL text lastEnd s, false)] else []) ++
    ((sliceL text s e, true) :: segLoop text ms e)

/-- The matchable-token filter of `split_for_highlight`: drop tokens that
uppercase to "AND"/"OR" or whose uppercase starts with "NOT" (a prefix-only
test). -/
def matchableTokens (query : String) : List String :=
  (splitWhitespace query).filter fun t =>
    let upper := strUpper t
    !(upper == "AND") && !(upper == "OR") && !(strStartsWith upper "NOT")

/-- The alternation pattern text `(?i)(t1|t2|...)` built by
`split_for_highlight` (tokens used verbatim, not escaped). -/
def highlightPattern (tokens : List String) : String :=
  "(?i)(" ++ joinSep "|" tokens ++ ")"

/-- `split_for_highlight` (src/main.rs lines 151-182), parameterized by the
external regex capability `rf`, which models `Regex::new` on the built
pattern followed by `find_iter` over the text: `none` models a pattern
compilation failure, `some ms` the list of match intervals (character
positions) produced by `find_iter`. -/
def split_for_highlight (rf : String → String → Option (List (Nat × Nat)))
    (text query : String) : List (String × Bool) :=
  let tokens := matchableTokens query
  if tokens.isEmpty then [(text, false)]
  else
    match rf (highlightPattern tokens) text with
    | none => [(text, false)]
    | some ms => (segLoop text.data ms 0).map fun p => (String.mk p.1, p.2)

/-- The `find_iter` interface contract: match intervals come in left-to-right
order, are non-overlapping, and lie within the text; `n` is the cursor. -/
def ValidFrom (n len : Nat) : List (Nat × Nat) → Prop
  | [] => True
  | (s, e) :: ms => n ≤ s ∧ s ≤ e ∧ e ≤ len ∧ ValidFrom e len ms

/-! ### Lemmas about the span-emission loop -/

lemma slice_append (l : List Char) {a b c : Nat} (hab : a ≤ b) (hbc : b ≤ c) :
    sliceL l a b ++ sliceL l b c = sliceL l a c := by
  unfold sliceL
  conv_rhs => rw [show c - a = (b - a) + (c - b) by omega, List.take_add,
    List.drop_drop, show a + (b - a) = b by omega]

lemma slice_ne_nil (l : List Char) {a b : Nat} (hab : a < b) (hal : a < l.length) :
    sliceL l a b ≠ [] := by
  have hlen : 0 < (sliceL l a b).length := by
    simp only [sliceL, List.length_take, List.length_drop]
    omega
  exact List.ne_nil_of_length_pos hlen

lemma segLoop_concat (text : List Char) (ms : List (Nat × Nat)) (n : Nat)
    (hn : n ≤ text.length) (hv : ValidFrom n text.length ms) :
    ((segLoop text ms n).map Prod.fst).flatten = sliceL text n text.length := by
  induction ms generalizing n with
  | nil =>
    by_cases h : n < text.length
    · simp [segLoop, h]
    · have hn2 : n = text.length := by omega
      subst hn2
      simp [segLoop, sliceL]
  | cons m ms ih =>
    obtain ⟨s, e⟩ := m
    obtain ⟨hns, hse, hel, hrest⟩ := hv
    by_cases hgap : n < s
    · simp only [segLoop, if_pos hgap, List.map_append, List.flatten_append,
        List.map_cons, List.flatten_cons, List.map_nil, List.flatten_nil, List.append_nil]
      rw [ih e hel hrest, slice_append text hse hel,
        slice_append text (Nat.le_of_lt hgap) (Nat.le_trans hse hel)]
    · have hns2 : n = s := by omega
      subst hns2
      simp only [segLoop, if_neg hgap, List.nil_append, List.map_cons, List.flatten_cons]
      rw [ih e hel hrest, slice_append text hse hel]

lemma segLoop_ne_nil (text : List Char) (ms : List (Nat × Nat)) (n : Nat)
    (hv : ValidFrom n text.length ms) (hne : ∀ m ∈ ms, m.1 < m.2) :
    ∀ p ∈ segLoop text ms n, p.1 ≠ [] := by
  induction ms generalizing n with
  | nil =>
    intro p hp
    by_cases h : n < text.length
    · simp only [segLoop, if_pos h, List.mem_singleton] at hp
      subst hp
      exact slice_ne_nil text h h
    · simp [segLoop, h] at hp
  | cons m ms ih =>
    obtain ⟨s, e⟩ := m
    obtain ⟨hns, hse, hel, hrest⟩ := hv
    have hse2 : s < e := hne (s, e) (by simp)
    intro p hp
    simp only [segLoop, List.mem_append, List.mem_cons] at hp
    rcases hp with hp | hp | hp
    · by_cases hgap : n < s
      · rw [if_pos hgap] at hp
        simp only [List.mem_singleton] at hp
        subst hp
        exact slice_ne_nil text hgap (by omega)
      · rw [if_neg hgap] at hp
        simp at hp
    · subst hp
      exact slice_ne_nil text hse2 (by omega)
    · exact ih e hrest (fun m hm => hne m (by simp [hm])) p hp

lemma data_join (l : List String) : (String.join l).data = (l.map String.data).flatten := by
  have haux : ∀ (acc : String),
      (l.foldl (fun r s => r ++ s) acc).data = acc.data ++ (l.map String.data).flatten := by
    induction l with
    | nil => intro acc; simp
    | cons a l ih =>
      intro acc
      simp only [List.foldl_cons, ih, String.data_append, List.map_cons, List.flatten_cons,
        List.append_assoc]
  exact haux ""

lemma sliceL_full (l : List Char) : sliceL l 0 l.length = l := by
  simp [sliceL]

/-- C7: for every text, every query and every regex capability whose match
list respects the `find_iter` contract (ordered, non-overlapping, in-bounds
intervals), concatenating the substrings of all spans produced by
`split_for_highlight`, in order, yields exactly the original text: the spans
partition the text with no gaps and no overlaps. -/
theorem highlight_spans_concat (rf : String → String → Option (List (Nat × Nat)))
    (text query : String)
    (hrf : ∀ p ms, rf p text = some ms → ValidFrom 0 text.data.length ms) :
    String.join ((split_for_highlight rf text query).map Prod.fst) = text := by
  unfold split_for_highlight
  by_cases htok : (matchableTokens query).isEmpty
  · simp [htok, String.join]
  · simp only [htok, Bool.false_eq_true, if_false]
    cases hms : rf (highlightPattern (matchableTokens query)) text with
    | none => simp [String.join]
    | some ms =>
      apply String.ext
      rw [data_join]
      simp only [List.map_map]
      have hmap : ((segLoop text.data ms 0).map
            (String.data ∘ Prod.fst ∘ fun p => (String.mk p.1, p.2))) =
          (segLoop text.data ms 0).map Prod.fst := by
        apply List.map_congr_left
        intro p _
        rfl
      rw [hmap, segLoop_concat text.data ms 0 (Nat.zero_le _) (hrf _ _ hms), sliceL_full]

/-- Witness for `highlight_spans_concat` with a one-interval match list on
the text "abc". -/
theorem highlight_spans_concat_witness :
    String.join ((split_for_highlight (fun _ _ => some [(1, 2)]) "abc" "b").map
      Prod.fst) = "abc" :=
  highlight_spans_concat (fun _ _ => some [(1, 2)]) "abc" "b"
    (by
      intro p ms h
      injection h with h
      subst h
      simp [ValidFrom])

/-- C8: whenever the query has no matchable token (every whitespace token
uppercases to "AND"/"OR" or its uppercase starts with "NOT"), or the
alternation pattern fails to build, `split_for_highlight` returns exactly one
span: the whole text, non-matching; the failure is never propagated. -/
theorem highlight_fallback_single_span
    (rf : String → String → Option (List (Nat × Nat))) (text query : String)
    (h : matchableTokens query = [] ∨
      rf (highlightPattern (matchableTokens query)) text = none) :
    split_for_highlight rf text query = [(text, false)] := by
  unfold split_for_highlight
  rcases h with h | h
  · simp [h]
  · by_cases htok : (matchableTokens query).isEmpty
    · simp [htok]
    · simp [htok, h]

/-- Witness for `highlight_fallback_single_span`: a capability that always
fails to compile the pattern (as for a token with unbalanced metacharacters)
yields the single whole-text non-matching span. -/
theorem highlight_fallback_single_span_witness :
    split_for_highlight (fun _ _ => none) "the faith of Noah" "faith" =
      [("the faith of Noah", false)] :=
  highlight_fallback_single_span (fun _ _ => none) "the faith of Noah" "faith"
    (Or.inr rfl)

/-- C9 counterexample: with the query "z*" (whose only matchable token is the
sub-pattern `z*`, which matches the empty string), `find_iter` on the text
"ab" produces the empty intervals (0,0), (1,1), (2,2) — a contract-respecting
match list — and `split_for_highlight` then emits empty matching spans even
though the source text is non-empty. -/
theorem highlight_empty_span_cex :
    ValidFrom 0 ("ab".data.length) [(0, 0), (1, 1), (2, 2)] ∧
    ("", true) ∈ split_for_highlight
      (fun _ _ => some [(0, 0), (1, 1), (2, 2)]) "ab" "z*" ∧
    "ab" ≠ "" := by
  refine ⟨by simp [ValidFrom], by decide, by decide⟩

/-- C9 (amended): every span produced by `split_for_highlight` has a
non-empty substring, except when the source text itself is empty or when a
matching span arises from an empty regex match (which the `find_iter`
contract permits when a token pattern can match the empty string): under the
additional hypothesis that every match interval is non-empty, all spans are
non-empty whenever the text is non-empty. -/
theorem highlight_spans_nonempty (rf : String → String → Option (List (Nat × Nat)))
    (text query : String)
    (hrf : ∀ p ms, rf p text = some ms →
      ValidFrom 0 text.data.length ms ∧ ∀ m ∈ ms, m.1 < m.2)
    (htext : text ≠ "") :
    ∀ sp ∈ split_for_highlight rf text query, sp.1 ≠ "" := by
  unfold split_for_highlight
  by_cases htok : (matchableTokens query).isEmpty
  · simp only [htok, if_true]
    intro sp hsp
    simp only [List.mem_singleton] at hsp
    subst hsp
    exact htext
  · simp only [htok, Bool.false_eq_true, if_false]
    cases hms : rf (highlightPattern (matchableTokens query)) text with
    | none =>
      intro sp hsp
      simp only [List.mem_singleton] at hsp
      subst hsp
      exact htext
    | some ms =>
      intro sp hsp
      simp only [List.mem_map] at hsp
      obtain ⟨p, hp, rfl⟩ := hsp
      have hne := segLoop_ne_nil text.data ms 0 (hrf _ _ hms).1 (hrf _ _ hms).2 p hp
      intro hcontra
      exact hne (congrArg String.data hcontra)

/-- Witness for `highlight_spans_nonempty` with one non-empty match interval
on the text "ab", instantiated at the matching span ("a", true). -/
theorem highlight_spans_nonempty_witness :
    ("a", true) ∈ split_for_highlight (fun _ _ => some [(0, 1)]) "ab" "a" ∧
    (("a", true) : String × Bool).1 ≠ "" :=
  ⟨by decide,
    highlight_spans_nonempty (fun _ _ => some [(0, 1)]) "ab" "a"
      (by
        intro p ms h
        injection h with h
        subst h
        refine ⟨by simp [ValidFrom], by simp⟩)
      (by decide) ("a", true) (by decide)⟩

/-! ## Update handlers (src/main.rs lines 235-360)

The rusqlite connection is an external dependency: it is modelled as a
capability record whose fallible operations return `Except`; the handlers
call them exactly where the Rust code does, with `expect` modelled as the
`fatal` outcome (a process-terminating panic). -/

/-- A verse row as built by the row-mapping closures (src/main.rs 61-67). -/
structure Verse where
  long_name : String
  chapter : Nat
  verse : Nat
  text : String

/-- A prepared advanced-search statement: running it either fails or yields
the rows, each row itself possibly an error (dropped by `filter_map(ok)`). -/
structure SearchStmt where
  queryMap : List String → Except String (List (Except String Verse))

/-- The single main data source used by advanced search. -/
structure SearchDb where
  prepare : String → Except String SearchStmt

/-- Outcome of one `update` call: a normal result, or a process-terminating
panic raised by `expect`. -/
inductive Outcome (α : Type) where
  | ok : α → Outcome α
  | fatal : String → Outcome α

/-- The advanced-search SQL text (src/main.rs lines 244-250). -/
def searchSqlFor (clause : String) : String :=
  "SELECT b.long_name, v.chapter, v.verse, v.text FROM verses v JOIN books b ON v.book_number = b.book_number WHERE " ++ clause

/-- `Message::SearchSubmitted` (src/main.rs lines 241-266): build the WHERE
clause, prepare and run the query — both fallible steps wrapped in `expect` —
then keep the successful rows. -/
def searchSubmitted (db : SearchDb) (input : String) : Outcome (List Verse) :=
  let r := build_where_clause input
  match db.prepare (searchSqlFor r.1) with
  | .error _ => .fatal "Failed to prepare statement"
  | .ok stmt =>
    match stmt.queryMap r.2 with
    | .error _ => .fatal "Query failed"
    | .ok rows => .ok (rows.filterMap Except.toOption)

/-- The lookup SQL text (src/main.rs lines 276-283), whitespace condensed. -/
def lookupSql : String :=
  "SELECT b.long_name, v.chapter, v.verse, v.text FROM verses v JOIN books b ON v.book_number = b.book_number WHERE b.short_name = ? AND ((v.chapter * 1000) + v.verse) BETWEEN ((? * 1000) + ?) AND ((? * 1000) + ?) ORDER BY v.chapter, v.verse"

/-- A prepared lookup statement: parameters are the book key and the four
range numbers. -/
structure LookupStmt where
  queryMap : String × Nat × Nat × Nat × Nat → Except String (List (Except String Verse))

/-- The single main data source used by lookup. -/
structure LookupDb where
  prepare : String → Except String LookupStmt

/-- `Message::LookupSubmitted` (src/main.rs lines 271-303): parse the
reference; on parse failure the results are cleared (no query is issued); on
success prepare and run the range query, both steps wrapped in `expect`. -/
def lookupSubmitted (db : LookupDb) (input : String) : Outcome (List Verse) :=
  match parse_lookup input with
  | some r =>
    match db.prepare lookupSql with
    | .error _ => .fatal "Failed to prepare statement"
    | .ok stmt =>
      match stmt.queryMap r with
      | .error _ => .fatal "Query failed"
      | .ok rows => .ok (rows.filterMap Except.toOption)
  | none => .ok []

/-- C1 counterexample: when the main source's `prepare` fails (bad statement,
unavailable source, I/O fault), an advanced-search submission and a lookup
submission both terminate the program via the `expect` panic "Failed to
prepare statement" — the failure is a program-terminating fault, not a
recoverable error value. -/
theorem query_failure_panics_cex :
    searchSubmitted ⟨fun _ => .error "unable to open database file"⟩ "faith" =
      .fatal "Failed to prepare statement" ∧
    lookupSubmitted ⟨fun _ => .error "unable to open database file"⟩ "Gen 6:1-6" =
      .fatal "Failed to prepare statement" :=
  ⟨rfl, rfl⟩

/-- C1 (amended): for every advanced-search or lookup submission against the
single main source, a failure of the underlying table query — statement
preparation or query execution — terminates the program via an `expect`
panic ("Failed to prepare statement" / "Query failed"); it is never surfaced
to the caller as a recoverable error value. -/
theorem query_failure_panics :
    (∀ (db : SearchDb) (input : String),
      (∃ e, db.prepare (searchSqlFor (build_where_clause input).1) = .error e) →
      searchSubmitted db input = .fatal "Failed to prepare statement") ∧
    (∀ (db : SearchDb) (input : String) (stmt : SearchStmt),
      db.prepare (searchSqlFor (build_where_clause input).1) = .ok stmt →
      (∃ e, stmt.queryMap (build_where_clause input).2 = .error e) →
      searchSubmitted db input = .fatal "Query failed") ∧
    (∀ (db : LookupDb) (input : String) (r : String × Nat × Nat × Nat × Nat),
      parse_lookup input = some r →
      (∃ e, db.prepare lookupSql = .error e) →
      lookupSubmitted db input = .fatal "Failed to prepare statement") ∧
    (∀ (db : LookupDb) (input : String) (r : String × Nat × Nat × Nat × Nat)
        (stmt : LookupStmt),
      parse_lookup input = some r →
      db.prepare lookupSql = .ok stmt →
      (∃ e, stmt.queryMap r = .error e) →
      lookupSubmitted db input = .fatal "Query failed") := by
  refine ⟨?_, ?_, ?_, ?_⟩
  · rintro db input ⟨e, he⟩
    simp [searchSubmitted, he]
  · rintro db input stmt hp ⟨e, he⟩
    simp [searchSubmitted, hp, he]
  · rintro db input r hr ⟨e, he⟩
    simp [lookupSubmitted, hr, he]
  · rintro db input r stmt hr hp ⟨e, he⟩
    simp [lookupSubmitted, hr, hp, he]

/-- Witness for `query_failure_panics`: a concrete failing preparation on the
search path. -/
theorem query_failure_panics_witness :
    searchSubmitted ⟨fun _ => .error "disk I/O error"⟩ "hope" =
      .fatal "Failed to prepare statement" :=
  query_failure_panics.1 ⟨fun _ => .error "disk I/O error"⟩ "hope"
    ⟨"disk I/O error", rfl⟩

/-! ## CompareEngine: `Message::CompareSubmitted` (src/main.rs lines 305-358) -/

/-- A prepared statement on one comparison source; rows carry chapter, verse
and text (the label comes from the source, not the row). -/
structure CompareStmt where
  queryMap : String × Nat × Nat × Nat × Nat →
    Except String (List (Except String (Nat × Nat × String)))

/-- An opened connection to one comparison source: the `info`-table
description lookup and statement preparation. -/
structure BibleConn where
  description : Except String String
  prepare : String → Except String CompareStmt

/-- One directory entry seen while scanning for sources: whether its
extension is `.SQLite3` (case-insensitive) and the result of
`Connection::open`. -/
structure DirEntry where
  extSQLite3 : Bool
  connOpen : Except String BibleConn

/-- The comparison SQL text (src/main.rs lines 324-331), whitespace
condensed. -/
def compareSql : String :=
  "SELECT v.chapter, v.verse, v.text FROM verses v JOIN books b ON v.book_number = b.book_number WHERE b.short_name = ? AND ((v.chapter * 1000) + v.verse) BETWEEN ((? * 1000) + ?) AND ((? * 1000) + ?) ORDER BY v.chapter, v.verse"

/-- Per-source body of the comparison loop (src/main.rs lines 314-348):
entries without the `.SQLite3` extension and entries that fail to open are
skipped; a failing description lookup falls back to the label
"Unknown Bible" (`unwrap_or_else`); a failing `prepare` or `query_map` skips
the source; otherwise the successful rows are collected with the source's
label attached to every verse and the source contributes one entry. -/
def compareOne (r : String × Nat × Nat × Nat × Nat) (e : DirEntry) :
    List (String × List Verse) :=
  if e.extSQLite3 then
    match e.connOpen with
    | .error _ => []
    | .ok conn =>
      let bibleName :=
        match conn.description with
        | .ok v => v
        | .error _ => "Unknown Bible"
      match conn.prepare compareSql with
      | .error _ => []
      | .ok stmt =>
        match stmt.queryMap r with
        | .error _ => []
        | .ok rows =>
          [(bibleName, rows.filterMap fun row =>
            match row with
            | .ok q => some ⟨bibleName, q.1, q.2.1, q.2.2⟩
            | .error _ => none)]
  else []

/-- `Message::CompareSubmitted` (src/main.rs lines 305-358): parse the
reference (failure clears the results and issues no query), then process
every discovered directory entry in order — entries whose directory read
failed are dropped by `filter_map(Result::ok)` — appending one entry per
successfully queried source. -/
def compareSubmitted (entries : List (Except String DirEntry)) (input : String) :
    List (String × List Verse) :=
  match parse_lookup input with
  | none => []
  | some r => ((entries.filterMap Except.toOption).map (compareOne r)).flatten

/-- A comparison source whose display-label lookup fails but whose
connection and query succeed. -/
def labelFailSource : DirEntry where
  extSQLite3 := true
  connOpen := .ok
    { description := .error "no such table: info"
      prepare := fun _ => .ok
        { queryMap := fun _ => .ok [.ok (6, 1, "In the beginning")] } }

/-- C2 counterexample: a source whose label lookup fails is NOT skipped — it
still contributes an entry (so compare does not return the empty result the
claim would require), with the fallback label "Unknown Bible" attached to the
entry and to its verses. -/
theorem compare_label_failure_not_skipped_cex :
    compareSubmitted [.ok labelFailSource] "Gen 6:1-6" =
      [("Unknown Bible", [⟨"Unknown Bible", 6, 1, "In the beginning"⟩])] := rfl

/-- C2 (amended): a source whose connection, statement preparation, or query
execution fails contributes no entry and does not abort the processing of
the remaining sources (the result is the concatenation of the per-source
results); a label-lookup failure alone does not skip the source — it falls
back to the fixed label "Unknown Bible"; in particular, with one source
failing (connection or query) and one succeeding, compare returns exactly the
one entry of the succeeding source and does not raise. -/
theorem compare_failure_isolation :
    (∀ (r : String × Nat × Nat × Nat × Nat) (e : DirEntry) (msg : String),
      e.connOpen = .error msg → compareOne r e = []) ∧
    (∀ (r : String × Nat × Nat × Nat × Nat) (e : DirEntry) (conn : BibleConn)
        (msg : String),
      e.connOpen = .ok conn → conn.prepare compareSql = .error msg →
      compareOne r e = []) ∧
    (∀ (r : String × Nat × Nat × Nat × Nat) (e : DirEntry) (conn : BibleConn)
        (stmt : CompareStmt) (msg : String),
      e.connOpen = .ok conn → conn.prepare compareSql = .ok stmt →
      stmt.queryMap r = .error msg → compareOne r e = []) ∧
    (∀ (es1 es2 : List (Except String DirEntry)) (input : String),
      compareSubmitted (es1 ++ es2) input =
        compareSubmitted es1 input ++ compareSubmitted es2 input) ∧
    (∀ (input : String) (r : String × Nat × Nat × Nat × Nat) (f s : DirEntry)
        (x : String × List Verse),
      parse_lookup input = some r → compareOne r f = [] → compareOne r s = [x] →
      compareSubmitted [.ok f, .ok s] input = [x]) := by
  refine ⟨?_, ?_, ?_, ?_, ?_⟩
  · intro r e msg h
    by_cases hext : e.extSQLite3 = true
    · simp [compareOne, hext, h]
    · simp [compareOne, hext]
  · intro r e conn msg hc hp
    by_cases hext : e.extSQLite3 = true
    · simp [compareOne, hext, hc, hp]
    · simp [compareOne, hext]
  · intro r e conn stmt msg hc hp hq
    by_cases hext : e.extSQLite3 = true
    · simp [compareOne, hext, hc, hp, hq]
    · simp [compareOne, hext]
  · intro es1 es2 input
    unfold compareSubmitted
    cases parse_lookup input with
    | none => simp
    | some r => simp [List.filterMap_append]
  · intro input r f s x hin hf hs
    have hfm : ([Except.ok f, Except.ok s] : List (Except String DirEntry)).filterMap
        Except.toOption = [f, s] := rfl
    simp [compareSubmitted, hin, hfm, hf, hs]

/-- A comparison source whose connection fails to open. -/
def failingSource : DirEntry where
  extSQLite3 := true
  connOpen := .error "unable to open database file"

/-- A comparison source that opens, labels and queries successfully. -/
def succeedingSource : DirEntry where
  extSQLite3 := true
  connOpen := .ok
    { description := .ok "King James 1769"
      prepare := fun _ => .ok
        { queryMap := fun _ => .ok [.ok (6, 1, "And it came to pass")] } }

/-- Witness for `compare_failure_isolation`: one failing and one succeeding
source yield exactly the succeeding source's entry. -/
theorem compare_failure_isolation_witness :
    compareSubmitted [.ok failingSource, .ok succeedingSource] "Gen 6:1-6" =
      [("King James 1769", [⟨"King James 1769", 6, 1, "And it came to pass"⟩])] :=
  compare_failure_isolation.2.2.2.2 "Gen 6:1-6" ("Gen", 6, 1, 6, 6)
    failingSource succeedingSource
    ("King James 1769", [⟨"King James 1769", 6, 1, "And it came to pass"⟩])
    rfl rfl rfl
